import Mathlib

/-!
Verification of the provable-vm repository (src/vm.rs, src/utils.rs,
src/main.rs) against its natural-language specification.

Modelling conventions:
* Rust `u32` values are `Nat`; the one unchecked `u32` addition in the
  interpreter (`ADD`) and the unchecked ops in the circuit replay wrap
  modulo 2^32 (release-profile semantics), written explicitly with `% 2^32`.
* The Rust stack is a `Vec<u32>` growing at the tail.  We represent it with
  the most recent (top) element FIRST, so Vec index 0 (the oldest element)
  is the LAST element of our list; pushes cons, pops take the head.
* The Rust heap is a `std::collections::HashMap<u32,u32>`.  A `HashMap` is
  an unordered container whose iteration order is not a function of its
  content; we embed it as an association list with unique keys, i.e. one
  concrete iteration order.  `hinsert` mirrors `HashMap::insert` (replace
  in place if the key exists, otherwise add), `hlookup` mirrors `get`.
* `Result<T, String>` is `Except String T`; a Rust `&mut self` method that
  can fail after partial mutation is a function returning the result paired
  with the (possibly mutated) state.
* `panic!`/index aborts in the circuit synthesizer are a distinct
  constructor of the outcome type, separate from typed results.
-/

deriving instance DecidableEq for Except

/-- Opcode from src/vm.rs (closed set; JMP and JZ are declared but have no
semantics in the interpreter or the circuit). -/
inductive Opcode where
  | PUSH
  | POP
  | ADD
  | SUB
  | JMP
  | JZ
  | LOAD
  | STORE
  | HALT
deriving DecidableEq, Repr

/-- Instruction from src/vm.rs: opcode plus optional u32 operand. -/
structure Instruction where
  opcode : Opcode
  operand : Option Nat
deriving DecidableEq, Repr

/-- ProvableState from src/vm.rs: one snapshot of the machine state.
The same four fields (pc, stack, heap, flags) are the working state of
`ProvableVM`, whose `capture_state` clones them into a snapshot. -/
structure ProvableState where
  pc : Nat
  stack : List Nat
  heap : List (Nat × Nat)
  flags : Nat
deriving DecidableEq, Repr

/-- `HashMap::get`: first (unique) binding of the address, if any. -/
def hlookup : List (Nat × Nat) → Nat → Option Nat
  | [], _ => none
  | (k, v) :: rest, a => if a = k then some v else hlookup rest a

/-- `HashMap::insert`: replace the binding in place if the key is present,
otherwise add a new binding. -/
def hinsert : List (Nat × Nat) → Nat → Nat → List (Nat × Nat)
  | [], a, v => [(a, v)]
  | (k, w) :: rest, a, v =>
    if a = k then (k, v) :: rest else (k, w) :: hinsert rest a v

/-- `ProvableVM::new()`: pc 0, empty stack, empty heap, flags 0 (the trace,
modelled separately, starts empty). -/
def initialProvableState : ProvableState :=
  { pc := 0, stack := [], heap := [], flags := 0 }

/-- `ProvableVM::capture_state`: clone the four state fields into a
snapshot. -/
def capture_state (s : ProvableState) : ProvableState :=
  { pc := s.pc, stack := s.stack, heap := s.heap, flags := s.flags }

/-- `ProvableVM::execute_instruction` from src/vm.rs.  Returns the
`Result<bool, String>` (`true` = keep looping, `false` = HALT) together
with the machine state, which in Rust is mutated through `&mut self` even
on the error paths (the pops that succeeded before the failure persist).
`pc += 1` runs only when the match falls through successfully; the HALT arm
and every error return leave pc untouched.  The unchecked `a + b` of ADD
wraps modulo 2^32. -/
def execute_instruction (instruction : Instruction) (s : ProvableState) :
    Except String Bool × ProvableState :=
  match instruction.opcode with
  | .PUSH =>
    match instruction.operand with
    | some value =>
      (.ok true, { s with stack := value :: s.stack, pc := s.pc + 1 })
    | none => (.error "PUSH requires an operand", s)
  | .POP =>
    match s.stack with
    | _ :: rest => (.ok true, { s with stack := rest, pc := s.pc + 1 })
    | [] => (.error "POP requires at least one element on the stack", s)
  | .ADD =>
    match s.stack with
    | a :: b :: rest =>
      (.ok true, { s with stack := ((a + b) % 2 ^ 32) :: rest, pc := s.pc + 1 })
    | [_] => (.error "ADD requires two elements on the stack", { s with stack := [] })
    | [] => (.error "ADD requires two elements on the stack", s)
  | .SUB =>
    match s.stack with
    | a :: b :: rest =>
      if a ≤ b then
        (.ok true, { s with stack := (b - a) :: rest, pc := s.pc + 1 })
      else
        (.error "SUB resulted in an underflow", { s with stack := rest })
    | [_] => (.error "SUB requires two elements on the stack", { s with stack := [] })
    | [] => (.error "SUB requires two elements on the stack", s)
  | .LOAD =>
    match instruction.operand with
    | some addr =>
      match hlookup s.heap addr with
      | some value =>
        (.ok true, { s with stack := value :: s.stack, pc := s.pc + 1 })
      | none =>
        (.error ("LOAD failed: address " ++ toString addr ++ " not found"), s)
    | none => (.error "LOAD requires an address operand", s)
  | .STORE =>
    match instruction.operand with
    | some addr =>
      match s.stack with
      | value :: rest =>
        (.ok true,
          { s with stack := rest, heap := hinsert s.heap addr value, pc := s.pc + 1 })
      | [] => (.error "STORE requires a value on the stack", s)
    | none => (.error "STORE requires an address operand", s)
  | .HALT => (.ok false, s)
  | .JMP => (.error "Unsupported opcode: JMP", s)
  | .JZ => (.error "Unsupported opcode: JZ", s)

/-- The `while let Some(instruction) = program.get(self.pc)` loop of
`ProvableVM::run_program`: snapshot the state, execute, stop on HALT
(`Ok(false)`) or error; once the loop exits normally, one final snapshot is
pushed.  The Rust loop terminates because pc strictly increases on every
continuing iteration; we make that bound an explicit structural argument
(`fuel`), which `runLoop` instantiates with `program.length - pc`, enough
for every continuing iteration (each one requires `pc < program.length` and
increments pc).  The fuel-exhausted branch is unreachable from `runLoop`'s
instantiation. -/
def runLoopF (program : List Instruction) :
    Nat → ProvableState → Except String (ProvableState × List ProvableState)
  | 0, s =>
    match program[s.pc]? with
    | none => .ok (s, [capture_state s])
    | some instruction =>
      match execute_instruction instruction s with
      | (.error e, _) => .error e
      | (.ok false, s') => .ok (s', [capture_state s, capture_state s'])
      | (.ok true, _) => .error "loop bound exhausted"
  | fuel + 1, s =>
    match program[s.pc]? with
    | none => .ok (s, [capture_state s])
    | some instruction =>
      match execute_instruction instruction s with
      | (.error e, _) => .error e
      | (.ok false, s') => .ok (s', [capture_state s, capture_state s'])
      | (.ok true, s') =>
        match runLoopF program fuel s' with
        | .ok (sf, tr) => .ok (sf, capture_state s :: tr)
        | .error e => .error e

/-- The run loop of `ProvableVM::run_program`, returning the final machine
state and the trace (the VM's `trace` field, starting empty). -/
def runLoop (program : List Instruction) (s : ProvableState) :
    Except String (ProvableState × List ProvableState) :=
  runLoopF program (program.length - s.pc) s

/-- Number of iterations of the run loop, i.e. the number of instructions
dispatched to `execute_instruction` (the dispatched HALT included), with
the same structure and bound as `runLoopF`. -/
def execStepsF (program : List Instruction) : Nat → ProvableState → Nat
  | 0, s =>
    match program[s.pc]? with
    | none => 0
    | some instruction =>
      match execute_instruction instruction s with
      | (.error _, _) => 1
      | (.ok false, _) => 1
      | (.ok true, _) => 1
  | fuel + 1, s =>
    match program[s.pc]? with
    | none => 0
    | some instruction =>
      match execute_instruction instruction s with
      | (.error _, _) => 1
      | (.ok false, _) => 1
      | (.ok true, s') => 1 + execStepsF program fuel s'

/-- Number of executed (dispatched) instruction steps of a run. -/
def execSteps (program : List Instruction) (s : ProvableState) : Nat :=
  execStepsF program (program.length - s.pc) s

/-! ### Trace commitment (src/vm.rs, `generate_trace_commitment`)

The Rust code feeds `bincode::serialize(state)` for each trace entry into
one SHA-256 hasher.  bincode's default configuration is fixed-width
little-endian integers with `u64` collection lengths, and serde serializes
a struct field by field in declaration order and a `HashMap` as its length
followed by its key/value pairs in iteration order.  SHA-256 is implemented
below executably (FIPS 180-4). -/

/-- Little-endian 4-byte encoding of a u32 value. -/
def u32le (n : Nat) : List Nat :=
  [n % 256, n / 256 % 256, n / 65536 % 256, n / 16777216 % 256]

/-- Little-endian 8-byte encoding of a u64 value. -/
def u64le (n : Nat) : List Nat :=
  u32le n ++ u32le (n / 4294967296)

/-- `bincode::serialize` of a `ProvableState`: pc, stack (length, then the
elements in Vec order — the reverse of our top-first list), heap (length,
then the key/value pairs in iteration order), flags. -/
def serializeState (s : ProvableState) : List Nat :=
  u32le s.pc
    ++ u64le s.stack.length ++ (s.stack.reverse.flatMap u32le)
    ++ u64le s.heap.length
      ++ (s.heap.flatMap (fun kv => u32le kv.1 ++ u32le kv.2))
    ++ [s.flags % 256]

/-- Big-endian 4-byte encoding of a 32-bit word. -/
def u32be (n : Nat) : List Nat :=
  [n / 16777216 % 256, n / 65536 % 256, n / 256 % 256, n % 256]

/-- Big-endian 8-byte encoding of a 64-bit value. -/
def u64be (n : Nat) : List Nat :=
  u32be (n / 4294967296) ++ u32be n

/-- Group a byte list (length a multiple of 4) into big-endian 32-bit
words. -/
def toWordsBE : List Nat → List Nat
  | b0 :: b1 :: b2 :: b3 :: rest =>
    (b0 * 16777216 + b1 * 65536 + b2 * 256 + b3) :: toWordsBE rest
  | _ => []

/-- Right-rotation of a 32-bit word. -/
def rotr32 (n x : Nat) : Nat :=
  ((x >>> n) ||| (x <<< (32 - n))) % 4294967296

/-- SHA-256 Σ0. -/
def bigSigma0 (x : Nat) : Nat := rotr32 2 x ^^^ rotr32 13 x ^^^ rotr32 22 x

/-- SHA-256 Σ1. -/
def bigSigma1 (x : Nat) : Nat := rotr32 6 x ^^^ rotr32 11 x ^^^ rotr32 25 x

/-- SHA-256 σ0. -/
def smallSigma0 (x : Nat) : Nat := rotr32 7 x ^^^ rotr32 18 x ^^^ (x >>> 3)

/-- SHA-256 σ1. -/
def smallSigma1 (x : Nat) : Nat := rotr32 17 x ^^^ rotr32 19 x ^^^ (x >>> 10)

/-- SHA-256 Ch (¬x is x XOR 0xFFFFFFFF on 32-bit words). -/
def sha2ch (x y z : Nat) : Nat := (x &&& y) ^^^ ((x ^^^ 4294967295) &&& z)

/-- SHA-256 Maj. -/
def sha2maj (x y z : Nat) : Nat := (x &&& y) ^^^ (x &&& z) ^^^ (y &&& z)

/-- The eight 32-bit words of a SHA-256 working state. -/
structure Hash8 where
  a : Nat
  b : Nat
  c : Nat
  d : Nat
  e : Nat
  f : Nat
  g : Nat
  h : Nat
deriving DecidableEq, Repr

/-- SHA-256 initial hash value. -/
def sha2init : Hash8 :=
  ⟨1779033703, 3144134277, 1013904242, 2773480762,
   1359893119, 2600822924, 528734635, 1541459225⟩

/-- The 64 SHA-256 round constants. -/
def sha2K : List Nat :=
  [1116352408, 1899447441, 3049323471, 3921009573, 961987163, 1508970993,
   2453635748, 2870763221, 3624381080, 310598401, 607225278, 1426881987,
   1925078388, 2162078206, 2614888103, 3248222580, 3835390401, 4022224774,
   264347078, 604807628, 770255983, 1249150122, 1555081692, 1996064986,
   2554220882, 2821834349, 2952996808, 3210313671, 3336571891, 3584528711,
   113926993, 338241895, 666307205, 773529912, 1294757372, 1396182291,
   1695183700, 1986661051, 2177026350, 2456956037, 2730485921, 2820302411,
   3259730800, 3345764771, 3516065817, 3600352804, 4094571909, 275423344,
   430227734, 506948616, 659060556, 883997877, 958139571, 1322822218,
   1537002063, 1747873779, 1955562222, 2024104815, 2227730452, 2361852424,
   2428436474, 2756734187, 3204031479, 3329325298]

/-- One SHA-256 round. -/
def sha2round (k w : Nat) (s : Hash8) : Hash8 :=
  let t1 := (s.h + bigSigma1 s.e + sha2ch s.e s.f s.g + k + w) % 4294967296
  let t2 := (bigSigma0 s.a + sha2maj s.a s.b s.c) % 4294967296
  ⟨(t1 + t2) % 4294967296, s.a, s.b, s.c,
   (s.d + t1) % 4294967296, s.e, s.f, s.g⟩

/-- Message-schedule extension: given the schedule so far in reverse order,
append 48 more words.  `rev.getD 1` is w(t-2), `rev.getD 6` is w(t-7),
`rev.getD 14` is w(t-15), `rev.getD 15` is w(t-16). -/
def sha2schedule (block16 : List Nat) : List Nat :=
  ((List.range 48).foldl
    (fun rev _ =>
      ((smallSigma1 (rev.getD 1 0) + rev.getD 6 0
          + smallSigma0 (rev.getD 14 0) + rev.getD 15 0) % 4294967296) :: rev)
    block16.reverse).reverse

/-- SHA-256 compression of one 16-word block into the chaining value. -/
def sha2compress (h0 : Hash8) (block16 : List Nat) : Hash8 :=
  let r := ((sha2K.zip (sha2schedule block16)).foldl
    (fun s kw => sha2round kw.1 kw.2 s) h0)
  ⟨(h0.a + r.a) % 4294967296, (h0.b + r.b) % 4294967296,
   (h0.c + r.c) % 4294967296, (h0.d + r.d) % 4294967296,
   (h0.e + r.e) % 4294967296, (h0.f + r.f) % 4294967296,
   (h0.g + r.g) % 4294967296, (h0.h + r.h) % 4294967296⟩

/-- Fold the compression over a word stream (length a multiple of 16). -/
def sha2blocks (h0 : Hash8) : List Nat → Hash8
  | w0 :: w1 :: w2 :: w3 :: w4 :: w5 :: w6 :: w7 ::
    w8 :: w9 :: w10 :: w11 :: w12 :: w13 :: w14 :: w15 :: rest =>
    sha2blocks
      (sha2compress h0 [w0, w1, w2, w3, w4, w5, w6, w7,
                        w8, w9, w10, w11, w12, w13, w14, w15]) rest
  | _ => h0

/-- SHA-256 of a byte list, as the 32 digest bytes. -/
def sha256 (msg : List Nat) : List Nat :=
  let padded := msg ++ 128 :: List.replicate ((64 + 55 - msg.length % 64) % 64) 0
    ++ u64be (8 * msg.length)
  let final := sha2blocks sha2init (toWordsBE padded)
  u32be final.a ++ u32be final.b ++ u32be final.c ++ u32be final.d
    ++ u32be final.e ++ u32be final.f ++ u32be final.g ++ u32be final.h

/-- `ProvableVM::generate_trace_commitment`: hash the concatenation of the
bincode serializations of the trace entries (hasher.update per entry equals
hashing the concatenation); the 32 digest bytes are returned (they are also
hex-encoded into the trace file, an I/O effect outside this model). -/
def generate_trace_commitment (trace : List ProvableState) : List Nat :=
  sha256 (trace.flatMap serializeState)

/-- `ProvableVM::run_program`: run the loop; only when it completes without
error is the trace commitment generated (and written).  Rust returns
`Ok(())`; we return the two observable artifacts, the trace and the
commitment bytes. -/
def run_program (program : List Instruction) (s : ProvableState) :
    Except String (List ProvableState × List Nat) :=
  match runLoop program s with
  | .error e => .error e
  | .ok (_, trace) => .ok (trace, generate_trace_commitment trace)

/-! ### Field conversion and public inputs (src/utils.rs, src/main.rs) -/

/-- Order of the BLS12-381 scalar field `Fr`. -/
def blsFrOrder : Nat :=
  52435875175126190479447740508185965837690552500527637822603658699938581184513

/-- A byte list read as a little-endian natural number. -/
def leBytesToNat : List Nat → Nat
  | [] => 0
  | b :: rest => b + 256 * leBytesToNat rest

/-- `convert_commitment_to_field` from src/utils.rs:
`Fr::from_le_bytes_mod_order` interprets the digest bytes as a
little-endian integer reduced modulo the order of `Fr`. -/
def convert_commitment_to_field (commitment : List Nat) : Nat :=
  leBytesToNat commitment % blsFrOrder

/-! ### Constraint circuit (src/vm.rs, `ExecutionCircuit` and
`ConstraintSynthesizer::generate_constraints`)

The arkworks `ConstraintSystemRef` is modelled by the data the synthesizer
feeds it: the values assigned to public-input variables, the values
assigned to witness variables (their assignment closures are evaluated in
proving mode), and the number of `enforce_constraint` calls.  The
allocator calls (`new_input_variable`, `new_witness_variable`,
`enforce_constraint`) return `Ok` here, so the `?`-propagated
`SynthesisError` path of the backend is never taken by the model; the
`panic!` aborts of the synthesizer are the distinct `panic` outcome. -/

/-- The constraint-system data accumulated by `generate_constraints`. -/
structure CSState where
  inputs : List Nat
  witnesses : List Nat
  constraints : Nat
deriving DecidableEq, Repr

/-- Record a public-input variable with its assigned value. -/
def addInput (cs : CSState) (v : Nat) : CSState :=
  { cs with inputs := cs.inputs ++ [v] }

/-- Record a witness variable with its assigned value. -/
def addWitness (cs : CSState) (v : Nat) : CSState :=
  { cs with witnesses := cs.witnesses ++ [v] }

/-- Record one `enforce_constraint` call. -/
def addConstraint (cs : CSState) : CSState :=
  { cs with constraints := cs.constraints + 1 }

/-- Outcome of the instruction loop of `generate_constraints`: either the
simulated stack/heap/pc and the constraint system after the loop, or a
`panic!` abort with its message. -/
inductive SynthStep where
  | ok (stack : List Nat) (heap : List (Nat × Nat)) (pc : Nat) (cs : CSState)
  | panic (msg : String)
deriving DecidableEq, Repr

/-- Outcome of `generate_constraints`: `Ok(())` with the accumulated
constraint system, or a `panic!` abort. -/
inductive SynthResult where
  | ok (cs : CSState)
  | panic (msg : String)
deriving DecidableEq, Repr

/-- `ExecutionCircuit` from src/vm.rs. -/
structure ExecutionCircuit where
  initial_state : ProvableState
  final_state : ProvableState
  program : List Instruction
  trace_commitment : List Nat
deriving DecidableEq, Repr

/-- The `for (i, instruction) in self.program.iter().enumerate()` loop of
`generate_constraints`: a symbolic replay over the simulated stack and
heap.  It iterates the whole program in list order (`current_pc` is only a
counter), breaks at the first HALT, and `panic!`s (aborts) on a missing
operand, an under-full simulated stack, an absent heap address, or an
unsupported opcode.  The unchecked u32 arithmetic of ADD/SUB wraps modulo
2^32 (the `% 2 ^ 32` on the popped values makes the wrapped subtraction
total; it is the identity for u32 values). -/
def synthLoop : List Instruction → List Nat → List (Nat × Nat) → Nat → CSState → SynthStep
  | [], stack, heap, pc, cs => .ok stack heap pc cs
  | instruction :: rest, stack, heap, pc, cs =>
    match instruction.opcode with
    | .PUSH =>
      match instruction.operand with
      | some value =>
        synthLoop rest (value :: stack) heap (pc + 1)
          (addConstraint (addWitness cs value))
      | none => .panic "PUSH operation requires an operand but none was provided."
    | .POP =>
      match stack with
      | [] => .panic "POP operation requires at least one element on the stack."
      | _ :: stack' => synthLoop rest stack' heap (pc + 1) cs
    | .ADD =>
      match stack with
      | a :: b :: stack' =>
        let result := (a + b) % 2 ^ 32
        synthLoop rest (result :: stack') heap (pc + 1)
          (addConstraint (addWitness (addWitness (addWitness cs a) b) result))
      | _ => .panic "ADD operation requires at least two elements on the stack."
    | .SUB =>
      match stack with
      | a :: b :: stack' =>
        let result := (b % 2 ^ 32 + (2 ^ 32 - a % 2 ^ 32)) % 2 ^ 32
        synthLoop rest (result :: stack') heap (pc + 1)
          (addConstraint (addWitness (addWitness (addWitness cs a) b) result))
      | _ => .panic "SUB operation requires at least two elements on the stack."
    | .STORE =>
      match instruction.operand with
      | some address =>
        match stack with
        | [] => .panic "STORE operation requires a value on the stack."
        | value :: stack' =>
          synthLoop rest stack' (hinsert heap address value) (pc + 1)
            (addConstraint (addConstraint (addWitness (addWitness cs address) value)))
      | none => .panic "STORE operation requires an address operand."
    | .LOAD =>
      match instruction.operand with
      | some address =>
        match hlookup heap address with
        | some value =>
          synthLoop rest (value :: stack) heap (pc + 1)
            (addConstraint (addConstraint (addWitness (addWitness cs address) value)))
        | none =>
          .panic ("LOAD operation requires a valid address in the heap. Address: "
            ++ toString address)
      | none => .panic "LOAD operation requires an address operand."
    | .HALT => .ok stack heap pc (addConstraint cs)
    | .JMP => .panic "Unsupported or invalid opcode encountered."
    | .JZ => .panic "Unsupported or invalid opcode encountered."

/-- `ExecutionCircuit::generate_constraints` from src/vm.rs: convert the
trace commitment to a field element, allocate it as the only public-input
variable and enforce the binding constraint; then replay the program via
`synthLoop`; finally, if the simulated stack is non-empty, compare its
Vec-index-0 element (the oldest element, the last of our top-first list)
with `final_state.stack[0]`, an indexing that aborts when the final
state's stack is empty. -/
def generate_constraints (c : ExecutionCircuit) : SynthResult :=
  let trace_commitment_field := convert_commitment_to_field c.trace_commitment
  let cs0 := addConstraint (addInput ⟨[], [], 0⟩ trace_commitment_field)
  match synthLoop c.program c.initial_state.stack c.initial_state.heap
      c.initial_state.pc cs0 with
  | .panic msg => .panic msg
  | .ok simStack _ _ cs =>
    match simStack with
    | [] => .ok cs
    | s0 :: sRest =>
      match c.final_state.stack with
      | [] => .panic "index out of bounds: the len is 0 but the index is 0"
      | f0 :: fRest =>
        .ok (addConstraint
          (addWitness (addWitness cs ((s0 :: sRest).getLastD 0))
            ((f0 :: fRest).getLastD 0)))

/-- The public-input vector prepared by `main` (src/main.rs lines 48-50):
exactly one element, the field encoding of the circuit commitment. -/
def main_public_inputs (c : ExecutionCircuit) : List Nat :=
  [convert_commitment_to_field c.trace_commitment]

/-! ### Concrete programs and circuits used in the claim instances -/

/-- Whether the Rust `Except`-style result is an error. -/
def isErr : Except String Bool → Bool
  | .error _ => true
  | .ok _ => false

/-- The exact conditions under which `execute_instruction` returns `Err`:
a missing operand (PUSH/LOAD/STORE), an under-full stack (POP/ADD/SUB/
STORE), an absent heap address (LOAD), a checked-subtraction underflow
(SUB), or an unsupported opcode (JMP/JZ).  ADD overflow is absent: the
unchecked addition wraps and succeeds. -/
def execFails (instruction : Instruction) (s : ProvableState) : Bool :=
  match instruction.opcode with
  | .PUSH => instruction.operand.isNone
  | .POP => s.stack.isEmpty
  | .ADD => s.stack.length < 2
  | .SUB =>
    match s.stack with
    | a :: b :: _ => b < a
    | _ => true
  | .LOAD =>
    match instruction.operand with
    | some addr => (hlookup s.heap addr).isNone
    | none => true
  | .STORE => instruction.operand.isNone || s.stack.isEmpty
  | .HALT => false
  | .JMP => true
  | .JZ => true

/-- Scenario A program: PUSH 5, PUSH 3, ADD, HALT. -/
def progA : List Instruction :=
  [⟨.PUSH, some 5⟩, ⟨.PUSH, some 3⟩, ⟨.ADD, none⟩, ⟨.HALT, none⟩]

/-- Scenario B program: PUSH 2, POP, HALT. -/
def progB : List Instruction :=
  [⟨.PUSH, some 2⟩, ⟨.POP, none⟩, ⟨.HALT, none⟩]

/-- A heap holding 10 at address 1 and 20 at address 2, iterated as
(1,10) then (2,20). -/
def heapA : List (Nat × Nat) := [(1, 10), (2, 20)]

/-- The same heap content iterated as (2,20) then (1,10): `HashMap`
iteration order is not determined by content, so both lists embed the same
Rust heap. -/
def heapB : List (Nat × Nat) := [(2, 20), (1, 10)]

/-- A circuit whose program pops from an empty simulated stack. -/
def circuitPOP : ExecutionCircuit :=
  { initial_state := initialProvableState, final_state := initialProvableState,
    program := [⟨.POP, none⟩], trace_commitment := [] }

/-- A circuit with an empty program (synthesis succeeds). -/
def circuitEmpty : ExecutionCircuit :=
  { initial_state := initialProvableState, final_state := initialProvableState,
    program := [], trace_commitment := [] }

/-! ### Helper lemmas -/

theorem addInput_inputs (cs : CSState) (v : Nat) :
    (addInput cs v).inputs = cs.inputs ++ [v] := rfl

theorem addWitness_inputs (cs : CSState) (v : Nat) :
    (addWitness cs v).inputs = cs.inputs := rfl

theorem addConstraint_inputs (cs : CSState) :
    (addConstraint cs).inputs = cs.inputs := rfl

/-- An instruction whose opcode is HALT maps any state to `Ok(false)`
without touching it. -/
theorem execute_halt (i : Instruction) (s : ProvableState)
    (h : i.opcode = .HALT) : execute_instruction i s = (.ok false, s) := by
  obtain ⟨op, oper⟩ := i
  subst h
  rfl

/-- Only the HALT arm returns `Ok(false)`, and it leaves the state
untouched. -/
theorem execute_false_inv (i : Instruction) (s s' : ProvableState)
    (h : execute_instruction i s = (.ok false, s')) :
    i.opcode = .HALT ∧ s' = s := by
  obtain ⟨op, oper⟩ := i
  cases op <;> simp only [execute_instruction] at h <;>
    (repeat' split at h) <;> simp_all

/-- Every successfully executed non-terminal instruction advances pc by
exactly 1. -/
theorem execute_true_pc (i : Instruction) (s s' : ProvableState)
    (h : execute_instruction i s = (.ok true, s')) : s'.pc = s.pc + 1 := by
  obtain ⟨op, oper⟩ := i
  cases op <;> simp only [execute_instruction] at h <;>
    (repeat' split at h) <;> simp_all <;> (subst h; rfl)

/-- A failing instruction leaves pc untouched. -/
theorem execute_error_pc (i : Instruction) (s s' : ProvableState) (e : String)
    (h : execute_instruction i s = (.error e, s')) : s'.pc = s.pc := by
  obtain ⟨op, oper⟩ := i
  cases op <;> simp only [execute_instruction] at h <;>
    (repeat' split at h) <;> simp_all <;>
    (obtain ⟨h1, h2⟩ := h; subst h2; rfl)

/-- Trace-length law for the run loop, at every bound: a successful run
yields one snapshot per dispatched instruction plus one final snapshot. -/
theorem runLoopF_length (p : List Instruction) :
    ∀ fuel s sf tr, runLoopF p fuel s = .ok (sf, tr) →
      tr.length = execStepsF p fuel s + 1 := by
  intro fuel
  induction fuel with
  | zero =>
    intro s sf tr h
    cases hget : p[s.pc]? with
    | none =>
      simp only [runLoopF, hget, Except.ok.injEq, Prod.mk.injEq] at h
      simp only [execStepsF, hget]
      obtain ⟨h1, h2⟩ := h
      subst h2
      rfl
    | some i =>
      simp only [runLoopF, hget] at h
      simp only [execStepsF, hget]
      obtain ⟨⟨r, s2⟩, hexec⟩ : ∃ r, execute_instruction i s = r := ⟨_, rfl⟩
      rw [hexec] at h ⊢
      match r with
      | .error e => simp at h
      | .ok false =>
        simp only [Except.ok.injEq, Prod.mk.injEq] at h
        obtain ⟨h1, h2⟩ := h
        subst h2
        rfl
      | .ok true => simp at h
  | succ f ih =>
    intro s sf tr h
    cases hget : p[s.pc]? with
    | none =>
      simp only [runLoopF, hget, Except.ok.injEq, Prod.mk.injEq] at h
      simp only [execStepsF, hget]
      obtain ⟨h1, h2⟩ := h
      subst h2
      rfl
    | some i =>
      simp only [runLoopF, hget] at h
      simp only [execStepsF, hget]
      obtain ⟨⟨r, s2⟩, hexec⟩ : ∃ r, execute_instruction i s = r := ⟨_, rfl⟩
      rw [hexec] at h ⊢
      match r with
      | .error e => simp at h
      | .ok false =>
        simp only [Except.ok.injEq, Prod.mk.injEq] at h
        obtain ⟨h1, h2⟩ := h
        subst h2
        rfl
      | .ok true =>
        dsimp only at h ⊢
        cases hrec : runLoopF p f s2 with
        | error e => rw [hrec] at h; simp at h
        | ok r2 =>
          obtain ⟨sf2, tr2⟩ := r2
          rw [hrec] at h
          simp only [Except.ok.injEq, Prod.mk.injEq] at h
          obtain ⟨h1, h2⟩ := h
          subst h2
          have := ih s2 sf2 tr2 hrec
          simp only [List.length_cons, this]
          omega

/-- A successful run whose final pc still indexes an instruction stopped at
a HALT, and its trace ends in two identical snapshots (one captured right
before the HALT, one right after the loop). -/
theorem runLoopF_halt (p : List Instruction) :
    ∀ fuel s sf tr, runLoopF p fuel s = .ok (sf, tr) →
      ∀ i, p[sf.pc]? = some i →
        i.opcode = .HALT ∧ ∃ tr₀ st, tr = tr₀ ++ [st, st] := by
  intro fuel
  induction fuel with
  | zero =>
    intro s sf tr h i hi
    cases hget : p[s.pc]? with
    | none =>
      simp only [runLoopF, hget, Except.ok.injEq, Prod.mk.injEq] at h
      obtain ⟨h1, h2⟩ := h
      subst h1
      exact absurd hi (by rw [hget]; simp)
    | some i0 =>
      simp only [runLoopF, hget] at h
      obtain ⟨⟨r, s2⟩, hexec⟩ : ∃ r, execute_instruction i0 s = r := ⟨_, rfl⟩
      rw [hexec] at h
      match r with
      | .error e => simp at h
      | .ok true => simp at h
      | .ok false =>
        simp only [Except.ok.injEq, Prod.mk.injEq] at h
        obtain ⟨h1, h2⟩ := h
        subst h1
        subst h2
        obtain ⟨hop, hs⟩ := execute_false_inv i0 s _ hexec
        subst hs
        rw [hget] at hi
        cases hi
        exact ⟨hop, [], _, rfl⟩
  | succ f ih =>
    intro s sf tr h i hi
    cases hget : p[s.pc]? with
    | none =>
      simp only [runLoopF, hget, Except.ok.injEq, Prod.mk.injEq] at h
      obtain ⟨h1, h2⟩ := h
      subst h1
      exact absurd hi (by rw [hget]; simp)
    | some i0 =>
      simp only [runLoopF, hget] at h
      obtain ⟨⟨r, s2⟩, hexec⟩ : ∃ r, execute_instruction i0 s = r := ⟨_, rfl⟩
      rw [hexec] at h
      match r with
      | .error e => simp at h
      | .ok false =>
        simp only [Except.ok.injEq, Prod.mk.injEq] at h
        obtain ⟨h1, h2⟩ := h
        subst h1
        subst h2
        obtain ⟨hop, hs⟩ := execute_false_inv i0 s _ hexec
        subst hs
        rw [hget] at hi
        cases hi
        exact ⟨hop, [], _, rfl⟩
      | .ok true =>
        dsimp only at h
        cases hrec : runLoopF p f s2 with
        | error e => rw [hrec] at h; simp at h
        | ok r2 =>
          obtain ⟨sf2, tr2⟩ := r2
          rw [hrec] at h
          simp only [Except.ok.injEq, Prod.mk.injEq] at h
          obtain ⟨h1, h2⟩ := h
          subst h1
          subst h2
          obtain ⟨hop, tr₀, st, htr⟩ := ih s2 _ tr2 hrec i hi
          exact ⟨hop, capture_state s :: tr₀, st, by simp [htr]⟩

/-- The instruction loop of the synthesizer never allocates a public-input
variable: a completed replay leaves the input list unchanged. -/
theorem synthLoop_inputs :
    ∀ (prog : List Instruction) (stack : List Nat) (heap : List (Nat × Nat))
      (pc : Nat) (cs : CSState) (stack' : List Nat) (heap' : List (Nat × Nat))
      (pc' : Nat) (cs' : CSState),
      synthLoop prog stack heap pc cs = .ok stack' heap' pc' cs' →
        cs'.inputs = cs.inputs := by
  intro prog
  induction prog with
  | nil =>
    intro stack heap pc cs stack' heap' pc' cs' h
    simp only [synthLoop, SynthStep.ok.injEq] at h
    rw [h.2.2.2]
  | cons i rest ih =>
    intro stack heap pc cs stack' heap' pc' cs' h
    obtain ⟨op, oper⟩ := i
    cases op <;> simp only [synthLoop] at h <;> (repeat' split at h) <;>
      first
      | exact SynthStep.noConfusion h
      | exact ih _ _ _ _ _ _ _ _ h
      | (rw [ih _ _ _ _ _ _ _ _ h]; rfl)
      | (simp only [SynthStep.ok.injEq] at h; rw [← h.2.2.2]; rfl)

/-- When the pc is past the program, the loop exits immediately at any
bound. -/
theorem runLoopF_get_none (p : List Instruction) (fuel : Nat)
    (s : ProvableState) (h : p[s.pc]? = none) :
    runLoopF p fuel s = .ok (s, [capture_state s]) := by
  cases fuel <;> simp [runLoopF, h]

/-- The loop bound is irrelevant once it covers `p.length - s.pc`: the
bound `runLoop` passes therefore captures the unbounded Rust loop
exactly. -/
theorem runLoopF_fuel_irrelevant (p : List Instruction) :
    ∀ f₁ f₂ s, p.length - s.pc ≤ f₁ → p.length - s.pc ≤ f₂ →
      runLoopF p f₁ s = runLoopF p f₂ s := by
  intro f₁
  induction f₁ with
  | zero =>
    intro f₂ s h1 h2
    have hn : p[s.pc]? = none := List.getElem?_eq_none (by omega)
    rw [runLoopF_get_none p 0 s hn, runLoopF_get_none p f₂ s hn]
  | succ a ih =>
    intro f₂ s h1 h2
    cases hget : p[s.pc]? with
    | none => rw [runLoopF_get_none p _ s hget, runLoopF_get_none p f₂ s hget]
    | some i =>
      have hlt : s.pc < p.length := by
        by_contra hge
        rw [List.getElem?_eq_none (by omega)] at hget
        cases hget
      cases f₂ with
      | zero => omega
      | succ b =>
        simp only [runLoopF, hget]
        obtain ⟨⟨r, s2⟩, hexec⟩ : ∃ r, execute_instruction i s = r := ⟨_, rfl⟩
        rw [hexec]
        match r with
        | .error e => rfl
        | .ok false => rfl
        | .ok true =>
          have hpc := execute_true_pc i s s2 hexec
          dsimp only
          rw [ih b s2 (by omega) (by omega)]

/-! ### Claims -/

/-- C5: SUB pops a first, then b, and pushes b - a by checked subtraction,
advancing pc; when b < a it returns the typed underflow error and pushes
nothing (the wrapped result never appears); with fewer than two stack
elements it returns the typed arity error. -/
theorem C5_sub_checked (s : ProvableState) (op : Option Nat) :
    (∀ a b rest, s.stack = a :: b :: rest →
      (a ≤ b →
        execute_instruction ⟨.SUB, op⟩ s =
          (.ok true, { s with stack := (b - a) :: rest, pc := s.pc + 1 })) ∧
      (b < a →
        execute_instruction ⟨.SUB, op⟩ s =
          (.error "SUB resulted in an underflow", { s with stack := rest }))) ∧
    (s.stack.length < 2 →
      execute_instruction ⟨.SUB, op⟩ s =
        (.error "SUB requires two elements on the stack", { s with stack := [] })) := by
  constructor
  · intro a b rest hst
    constructor
    · intro hle
      simp only [execute_instruction, hst]
      rw [if_pos hle]
    · intro hlt
      simp only [execute_instruction, hst]
      rw [if_neg (by omega)]
  · intro hlen
    obtain ⟨pc, stack, heap, flags⟩ := s
    match stack, hlen with
    | [], _ => simp [execute_instruction]
    | [a], _ => simp [execute_instruction]

/-- C5 witness: SUB on stack (top) 2, 7 succeeds with 7 - 2 = 5. -/
theorem C5_witness :
    execute_instruction ⟨.SUB, none⟩ ⟨0, [2, 7], [], 0⟩ =
      (.ok true, ⟨1, [5], [], 0⟩) :=
  ((C5_sub_checked ⟨0, [2, 7], [], 0⟩ none).1 2 7 [] rfl).1 (by omega)

/-- C6: every successfully executed non-HALT instruction advances pc by
exactly 1 (`Ok(true)` is returned exactly by those); HALT stops the loop
leaving the state (pc included) unchanged; a failing instruction leaves pc
unchanged. -/
theorem C6_pc_discipline (i : Instruction) (s : ProvableState) :
    (∀ s', execute_instruction i s = (.ok true, s') → s'.pc = s.pc + 1) ∧
    (i.opcode = .HALT → execute_instruction i s = (.ok false, s)) ∧
    (∀ e s', execute_instruction i s = (.error e, s') → s'.pc = s.pc) :=
  ⟨fun s' h => execute_true_pc i s s' h,
   fun h => execute_halt i s h,
   fun e s' h => execute_error_pc i s s' e h⟩

/-- C6 witness: HALT at the initial state. -/
theorem C6_witness :
    execute_instruction ⟨.HALT, none⟩ initialProvableState =
      (.ok false, initialProvableState) :=
  (C6_pc_discipline ⟨.HALT, none⟩ initialProvableState).2.1 rfl

/-- C7 (amended): `execute_instruction` is a total function whose failures
are exactly the typed errors enumerated by `execFails` — missing operand,
under-full stack, absent heap address, SUB underflow, unsupported opcode —
and nothing else; in particular ADD overflow is NOT an error (the
unchecked addition wraps modulo 2^32 and succeeds). -/
theorem C7_error_characterization (i : Instruction) (s : ProvableState) :
    isErr (execute_instruction i s).1 = execFails i s := by
  obtain ⟨op, oper⟩ := i
  obtain ⟨pc, stack, heap, flags⟩ := s
  cases op <;> cases oper <;>
    rcases stack with _ | ⟨a, _ | ⟨b, rest⟩⟩ <;>
    simp only [execute_instruction, execFails, isErr, Option.isNone,
      List.isEmpty, List.length] <;>
    first
    | ((by_cases hab : a ≤ b) <;> simp [hab] <;> omega)
    | ((repeat' split) <;> simp_all)

/-- C7 counterexample: ADD on the stack (top) 4294967295, 1 overflows u32;
the code returns `Ok` with the wrapped sum 0 on the stack, not a typed
error, contradicting the claim that ADD overflow is reported as an error. -/
theorem C7_counterexample :
    execute_instruction ⟨.ADD, none⟩ ⟨0, [4294967295, 1], [], 0⟩ =
      (.ok true, ⟨1, [0], [], 0⟩) ∧
    isErr (execute_instruction ⟨.ADD, none⟩ ⟨0, [4294967295, 1], [], 0⟩).1
      = false := by
  constructor
  · decide
  · decide

/-- C9: running [LOAD 7] from the empty initial state fails at run time
with the typed address-not-found error, and `run_program` consequently
never reaches the commitment step: no `.ok` result (which alone carries a
commitment) exists. -/
theorem C9_load_no_commitment :
    run_program [⟨.LOAD, some 7⟩] initialProvableState =
      .error "LOAD failed: address 7 not found" ∧
    ∀ out, run_program [⟨.LOAD, some 7⟩] initialProvableState ≠ .ok out := by
  have h : run_program [⟨.LOAD, some 7⟩] initialProvableState =
      .error "LOAD failed: address 7 not found" := by decide
  refine ⟨h, fun out hout => ?_⟩
  rw [h] at hout
  exact Except.noConfusion hout

/-- C3 (amended): Scenario A succeeds with final stack [8], but its trace
has length 5, not 4: one snapshot before each of the 4 dispatched
instructions (the HALT included) plus the final snapshot. -/
theorem C3_scenario_a :
    (run_program progA initialProvableState).map
        (fun r => (r.1.length, r.1.getLast?.map ProvableState.stack)) =
      .ok (5, some [8]) := by
  decide

/-- C3 counterexample: the trace of Scenario A has length 5, hence not the
claimed 4. -/
theorem C3_counterexample :
    (run_program progA initialProvableState).map (fun r => r.1.length) = .ok 5 ∧
    (run_program progA initialProvableState).map (fun r => r.1.length) ≠ .ok 4 := by
  exact ⟨by decide, by decide⟩

/-- C4 (amended): for every successful run, the trace length is the number
of instructions dispatched to `execute_instruction` (the dispatched HALT
included) plus one. -/
theorem C4_trace_length (p : List Instruction) (s sf : ProvableState)
    (tr : List ProvableState) (h : runLoop p s = .ok (sf, tr)) :
    tr.length = execSteps p s + 1 :=
  runLoopF_length p (p.length - s.pc) s sf tr h

/-- C4 witness: the single-HALT program runs 1 step and yields a 2-entry
trace. -/
theorem C4_witness :
    ([capture_state initialProvableState, capture_state initialProvableState] :
        List ProvableState).length =
      execSteps [⟨Opcode.HALT, none⟩] initialProvableState + 1 :=
  C4_trace_length [⟨Opcode.HALT, none⟩] initialProvableState initialProvableState
    [capture_state initialProvableState, capture_state initialProvableState]
    (by decide)

/-- C4 counterexample: Scenario B ends with an empty stack but its trace
has length 4 (3 dispatched instructions plus the final snapshot), not the
claimed 3. -/
theorem C4_counterexample :
    (run_program progB initialProvableState).map
        (fun r => (r.1.length, r.1.getLast?.map ProvableState.stack)) =
      .ok (4, some []) ∧
    (run_program progB initialProvableState).map (fun r => r.1.length) ≠ .ok 3 := by
  exact ⟨by decide, by decide⟩

/-- C10: a successful run whose final pc still indexes an instruction
terminated at a HALT; executing HALT returns `Ok(false)` and changes no
component of any machine state, and the trace of such a run ends in two
identical snapshots. -/
theorem C10_halt_frame (p : List Instruction) (s sf : ProvableState)
    (tr : List ProvableState) (i : Instruction)
    (hrun : runLoop p s = .ok (sf, tr)) (hi : p[sf.pc]? = some i) :
    i.opcode = .HALT ∧ (∀ s₂, execute_instruction i s₂ = (.ok false, s₂)) ∧
      ∃ tr₀ st, tr = tr₀ ++ [st, st] := by
  obtain ⟨hop, htr⟩ := runLoopF_halt p (p.length - s.pc) s sf tr hrun i hi
  exact ⟨hop, fun s₂ => execute_halt i s₂ hop, htr⟩

/-- C10 witness: the single-HALT program from the initial state. -/
theorem C10_witness :
    (⟨Opcode.HALT, none⟩ : Instruction).opcode = Opcode.HALT ∧
    (∀ s₂, execute_instruction ⟨Opcode.HALT, none⟩ s₂ = (.ok false, s₂)) ∧
    ∃ tr₀ st,
      [capture_state initialProvableState, capture_state initialProvableState] =
        tr₀ ++ [st, st] :=
  C10_halt_frame [⟨Opcode.HALT, none⟩] initialProvableState initialProvableState
    [capture_state initialProvableState, capture_state initialProvableState]
    ⟨Opcode.HALT, none⟩ (by decide) (by decide)

/-- C8: the verification public-input vector has exactly one element, the
little-endian-mod-r field encoding of the 32 commitment bytes, and a
successful constraint synthesis allocates exactly that vector as its
public inputs — the same function of the same commitment on both sides. -/
theorem C8_single_public_input (c : ExecutionCircuit) (cs : CSState)
    (h : generate_constraints c = .ok cs) :
    (main_public_inputs c).length = 1 ∧
    main_public_inputs c = [convert_commitment_to_field c.trace_commitment] ∧
    cs.inputs = main_public_inputs c := by
  refine ⟨rfl, rfl, ?_⟩
  simp only [generate_constraints] at h
  cases hsl : synthLoop c.program c.initial_state.stack c.initial_state.heap
      c.initial_state.pc
      (addConstraint (addInput ⟨[], [], 0⟩
        (convert_commitment_to_field c.trace_commitment))) with
  | panic msg => rw [hsl] at h; simp at h
  | ok stack heap pc cs1 =>
    rw [hsl] at h
    have hsi := synthLoop_inputs _ _ _ _ _ _ _ _ _ hsl
    rcases stack with _ | ⟨s0, sRest⟩
    · dsimp only at h
      injection h with h'
      subst h'
      simpa [main_public_inputs, addConstraint_inputs, addInput_inputs] using hsi
    · dsimp only at h
      rcases hfs : c.final_state.stack with _ | ⟨f0, fRest⟩
      · rw [hfs] at h; simp at h
      · rw [hfs] at h
        dsimp only at h
        injection h with h'
        subst h'
        simpa [main_public_inputs, addConstraint_inputs, addWitness_inputs,
          addInput_inputs] using hsi

/-- C8 witness: synthesis of the empty-program circuit succeeds with the
single public input 0 (the field encoding of the empty commitment). -/
theorem C8_witness :
    (main_public_inputs circuitEmpty).length = 1 ∧
    main_public_inputs circuitEmpty =
      [convert_commitment_to_field circuitEmpty.trace_commitment] ∧
    (⟨[0], [], 1⟩ : CSState).inputs = main_public_inputs circuitEmpty :=
  C8_single_public_input circuitEmpty ⟨[0], [], 1⟩ (by decide)

/-- C2: constraint synthesis on the reachable malformed input "POP with an
empty simulated stack" aborts via `panic!` instead of returning a typed
error, contradicting the claim (the spec itself flags these aborts as
defects to fix). -/
theorem C2_synthesis_panics :
    generate_constraints circuitPOP =
      .panic "POP operation requires at least one element on the stack." := by
  decide

/-- C1: two traces whose single states agree on pc, stack, flags and on
heap content (pointwise-equal lookups) but present the heap in the two
iteration orders a `HashMap` may use produce different SHA-256
commitments: the digest depends on the heap iteration order, which is not
canonicalized before hashing. -/
theorem C1_commitment_heap_order :
    (∀ a, hlookup heapA a = hlookup heapB a) ∧
    generate_trace_commitment [⟨0, [], heapA, 0⟩] ≠
      generate_trace_commitment [⟨0, [], heapB, 0⟩] := by
  constructor
  · intro a
    by_cases h1 : a = 1
    · subst h1; decide
    · by_cases h2 : a = 2
      · subst h2; decide
      · simp [heapA, heapB, hlookup, h1, h2]
  · decide
